import Mathlib

/-!
Verification of the circular-dependency example: two C translation units,
`package-a/package-a.c` and `package-b/package-b.c`.  Each defines one
function (`package_a_function` / `package_b_function`) that prints a fixed
line with `printf` and then calls the function defined in the other file,
plus a `main` that calls the local function and then `return 0;`.

The embedding is a small imperative statement language covering the C
constructs that could occur in such files (printing a fixed line, calling a
named void function, assigning a global variable, reading a line of input,
returning an integer), with a fuel-bounded interpreter.  The state carries
the lines written to standard output, the remaining standard input, and a
global-variable store; the interpreter can signal normal completion, a
`return`, fuel exhaustion (the run is still in progress), or a runtime
error (calling an unresolved symbol, reading past the end of input).
Fuel bounds the depth of nested function calls, so a run with fuel `n` is
the finite approximation of the (here infinite) execution.
-/

namespace CircularDeps

/-- The line printed by `package_a_function` (package-a.c line 7). -/
def msgA : String := "Package A function called"

/-- The line printed by `package_b_function` (package-b.c line 7). -/
def msgB : String := "Package B function called"

/-- Statements of the modelled C fragment.  The two source files only use
`print`, `call` and `ret`; `assign` and `scan` model the global-variable
writes and input reads that C would allow but these files never perform. -/
inductive Stmt where
  | print (line : String)
  | call (fn : String)
  | assign (x : String) (v : String)
  | scan (x : String)
  | ret (v : Int)

/-- Program state: lines already written to standard output, remaining
lines of standard input, and the global-variable store. -/
structure CState where
  stdout : List String
  stdin : List String
  store : List (String × String)

/-- How a statement list finished: fell off the end, executed `return v`,
ran out of call-depth fuel (the run is still in progress), or hit a
runtime error. -/
inductive Signal where
  | normal
  | returned (v : Int)
  | timeout
  | err (msg : String)

/-- Is the signal a runtime error? -/
def Signal.isErr : Signal → Bool
  | .err _ => true
  | _ => false

/-- A linkage environment: which function bodies the linker resolved. -/
def Env : Type := String → Option (List Stmt)

/-- Run a statement list.  `callFn` performs one named function call (it
already carries the remaining call-depth fuel). -/
def execList (callFn : String → CState → CState × Signal) :
    List Stmt → CState → CState × Signal
  | [], s => (s, Signal.normal)
  | Stmt.print m :: rest, s =>
      execList callFn rest { s with stdout := s.stdout ++ [m] }
  | Stmt.call f :: rest, s =>
      match callFn f s with
      | (s', Signal.normal) => execList callFn rest s'
      | (s', r) => (s', r)
  | Stmt.assign x v :: rest, s =>
      execList callFn rest { s with store := (x, v) :: s.store }
  | Stmt.scan x :: rest, s =>
      match s.stdin with
      | [] => (s, Signal.err "scan: end of input")
      | line :: more =>
          execList callFn rest { s with stdin := more, store := (x, line) :: s.store }
  | Stmt.ret v :: _, s => (s, Signal.returned v)

/-- Call a named function with call-depth fuel `n`: entering a body costs
one unit of fuel; an unresolved symbol is a runtime error; a `return`
inside a void callee ends the call normally. -/
def execCall (env : Env) : Nat → String → CState → CState × Signal
  | 0, _, s => (s, Signal.timeout)
  | n + 1, f, s =>
      match env f with
      | none => (s, Signal.err ("undefined function: " ++ f))
      | some body =>
          match execList (execCall env n) body s with
          | (s', Signal.returned _) => (s', Signal.normal)
          | (s', r) => (s', r)

/-- Run a statement list under linkage `env` with call-depth fuel `n`. -/
def exec (env : Env) (n : Nat) (prog : List Stmt) (s : CState) : CState × Signal :=
  execList (execCall env n) prog s

/-- Body of `package_a_function` (package-a.c lines 6–10):
print the fixed line, then call `package_b_function`. -/
def package_a_function : List Stmt :=
  [Stmt.print msgA, Stmt.call "package_b_function"]

/-- Body of `package_b_function` (package-b.c lines 6–10):
print the fixed line, then call `package_a_function`. -/
def package_b_function : List Stmt :=
  [Stmt.print msgB, Stmt.call "package_a_function"]

/-- Body of `main` in package-a.c (lines 12–15):
call `package_a_function()`, then `return 0;`. -/
def mainA : List Stmt :=
  [Stmt.call "package_a_function", Stmt.ret 0]

/-- Body of `main` in package-b.c (lines 12–15):
call `package_b_function()`, then `return 0;`. -/
def mainB : List Stmt :=
  [Stmt.call "package_b_function", Stmt.ret 0]

/-- The linkage in which both externally-linkable symbols are resolved to
the bodies the two files define. -/
def linkedEnv : Env := fun f =>
  if f = "package_a_function" then some package_a_function
  else if f = "package_b_function" then some package_b_function
  else none

/-- Initial state of a run: nothing written, a given input, empty store. -/
def initState (input : List String) : CState :=
  { stdout := [], stdin := input, store := [] }

/-- The first message of the mutual loop entered on side `a` (`true` for
`package_a_function`, `false` for `package_b_function`). -/
def msgOf (a : Bool) : String := if a then msgA else msgB

/-- The lines the mutual recursion emits when entered on side `a` with
call-depth budget allowing `n` further nested calls: `n + 1` lines
alternating between the two messages, starting with side `a`'s. -/
def traceFrom (a : Bool) : Nat → List String
  | 0 => [msgOf a]
  | n + 1 => msgOf a :: traceFrom (!a) n

/-- A linkage stub resolving both symbols to an empty body: the smallest
linkage under which the call made by either `main` returns. -/
def stubEnv : Env := fun f =>
  if f = "package_a_function" then some []
  else if f = "package_b_function" then some []
  else none

end CircularDeps

namespace CircularDeps

theorem linkedEnv_A : linkedEnv "package_a_function" = some package_a_function := rfl

theorem linkedEnv_B : linkedEnv "package_b_function" = some package_b_function := rfl

theorem traceFrom_length (n : Nat) : ∀ a : Bool, (traceFrom a n).length = n + 1 := by
  induction n with
  | zero => intro a; rfl
  | succ n ih => intro a; simp [traceFrom, ih]

theorem traceFrom_mem (n : Nat) :
    ∀ (a : Bool) (x : String), x ∈ traceFrom a n → x = msgA ∨ x = msgB := by
  induction n with
  | zero =>
    intro a x hx
    cases a <;> simp [traceFrom, msgOf] at hx <;> simp [hx]
  | succ n ih =>
    intro a x hx
    rw [traceFrom] at hx
    rcases List.mem_cons.mp hx with h | h
    · cases a <;> simp [msgOf] at h <;> simp [h]
    · exact ih (!a) x h

/-- Entering either function through `execCall` with positive fuel `n + 1`
appends the alternating trace of length `n + 1` and times out. -/
theorem execCall_linked (n : Nat) : ∀ s : CState,
    execCall linkedEnv (n + 1) "package_a_function" s
      = ({ s with stdout := s.stdout ++ traceFrom true n }, Signal.timeout) ∧
    execCall linkedEnv (n + 1) "package_b_function" s
      = ({ s with stdout := s.stdout ++ traceFrom false n }, Signal.timeout) := by
  induction n with
  | zero =>
    intro s
    constructor <;> rfl
  | succ n ih =>
    intro s
    constructor
    · have hB := (ih { s with stdout := s.stdout ++ [msgA] }).2
      rw [execCall, linkedEnv_A]
      show (match execList (execCall linkedEnv (n + 1)) package_a_function s with
            | (s', Signal.returned _) => (s', Signal.normal)
            | (s', r) => (s', r)) = _
      rw [show execList (execCall linkedEnv (n + 1)) package_a_function s
            = (match execCall linkedEnv (n + 1) "package_b_function"
                  { s with stdout := s.stdout ++ [msgA] } with
               | (s', Signal.normal) => execList (execCall linkedEnv (n + 1)) [] s'
               | (s', r) => (s', r)) from rfl]
      rw [hB]
      simp [traceFrom, msgOf]
    · have hA := (ih { s with stdout := s.stdout ++ [msgB] }).1
      rw [execCall, linkedEnv_B]
      show (match execList (execCall linkedEnv (n + 1)) package_b_function s with
            | (s', Signal.returned _) => (s', Signal.normal)
            | (s', r) => (s', r)) = _
      rw [show execList (execCall linkedEnv (n + 1)) package_b_function s
            = (match execCall linkedEnv (n + 1) "package_a_function"
                  { s with stdout := s.stdout ++ [msgB] } with
               | (s', Signal.normal) => execList (execCall linkedEnv (n + 1)) [] s'
               | (s', r) => (s', r)) from rfl]
      rw [hA]
      simp [traceFrom, msgOf]

/-- Running the body of `package_a_function` with any fuel `n` appends the
alternating trace starting with message A and times out. -/
theorem exec_package_a (n : Nat) (s : CState) :
    exec linkedEnv n package_a_function s
      = ({ s with stdout := s.stdout ++ traceFrom true n }, Signal.timeout) := by
  cases n with
  | zero => rfl
  | succ n =>
    have hB := (execCall_linked n { s with stdout := s.stdout ++ [msgA] }).2
    show (match execCall linkedEnv (n + 1) "package_b_function"
              { s with stdout := s.stdout ++ [msgA] } with
          | (s', Signal.normal) =>
              execList (execCall linkedEnv (n + 1)) [] s'
          | (s', r) => (s', r)) = _
    rw [hB]
    simp [traceFrom, msgOf]

/-- Running the body of `package_b_function` with any fuel `n` appends the
alternating trace starting with message B and times out. -/
theorem exec_package_b (n : Nat) (s : CState) :
    exec linkedEnv n package_b_function s
      = ({ s with stdout := s.stdout ++ traceFrom false n }, Signal.timeout) := by
  cases n with
  | zero => rfl
  | succ n =>
    have hA := (execCall_linked n { s with stdout := s.stdout ++ [msgB] }).1
    show (match execCall linkedEnv (n + 1) "package_a_function"
              { s with stdout := s.stdout ++ [msgB] } with
          | (s', Signal.normal) =>
              execList (execCall linkedEnv (n + 1)) [] s'
          | (s', r) => (s', r)) = _
    rw [hA]
    simp [traceFrom, msgOf]

/-- Running `main` of package-a.c with fuel 0 emits nothing and times out. -/
theorem exec_mainA_zero (s : CState) :
    exec linkedEnv 0 mainA s = (s, Signal.timeout) := rfl

/-- Running `main` of package-b.c with fuel 0 emits nothing and times out. -/
theorem exec_mainB_zero (s : CState) :
    exec linkedEnv 0 mainB s = (s, Signal.timeout) := rfl

/-- Running `main` of package-a.c with fuel `n + 1` appends the trace of
the mutual loop entered at `package_a_function` and times out. -/
theorem exec_mainA_succ (n : Nat) (s : CState) :
    exec linkedEnv (n + 1) mainA s
      = ({ s with stdout := s.stdout ++ traceFrom true n }, Signal.timeout) := by
  have hA := (execCall_linked n s).1
  show (match execCall linkedEnv (n + 1) "package_a_function" s with
        | (s', Signal.normal) =>
            execList (execCall linkedEnv (n + 1)) [Stmt.ret 0] s'
        | (s', r) => (s', r)) = _
  rw [hA]

/-- Running `main` of package-b.c with fuel `n + 1` appends the trace of
the mutual loop entered at `package_b_function` and times out. -/
theorem exec_mainB_succ (n : Nat) (s : CState) :
    exec linkedEnv (n + 1) mainB s
      = ({ s with stdout := s.stdout ++ traceFrom false n }, Signal.timeout) := by
  have hB := (execCall_linked n s).2
  show (match execCall linkedEnv (n + 1) "package_b_function" s with
        | (s', Signal.normal) =>
            execList (execCall linkedEnv (n + 1)) [Stmt.ret 0] s'
        | (s', r) => (s', r)) = _
  rw [hB]

/-- Under the mutual linkage both `main`s are still running (never an exit)
at every call-depth bound. -/
theorem exec_main_timeout (n : Nat) (s : CState) :
    (exec linkedEnv n mainA s).2 = Signal.timeout ∧
    (exec linkedEnv n mainB s).2 = Signal.timeout := by
  cases n with
  | zero => exact ⟨rfl, rfl⟩
  | succ n => rw [exec_mainA_succ, exec_mainB_succ]; exact ⟨rfl, rfl⟩

/-- Position `i` of the alternating trace: side `a`'s message at even
offsets, the other side's at odd offsets, defined up to the trace's end. -/
theorem traceFrom_get (n : Nat) : ∀ (a : Bool) (i : Nat),
    (traceFrom a n).get? i
      = if i ≤ n then some (if i % 2 = 0 then msgOf a else msgOf (!a)) else none := by
  induction n with
  | zero =>
    intro a i
    cases i with
    | zero => simp [traceFrom, List.get?]
    | succ i =>
      rw [if_neg (by omega)]
      simp [traceFrom, List.get?]
  | succ n ih =>
    intro a i
    cases i with
    | zero =>
      rw [if_pos (by omega)]
      simp [traceFrom, List.get?]
    | succ i =>
      rw [traceFrom]
      show (traceFrom (!a) n).get? i = _
      rw [ih (!a) i, Bool.not_not]
      split_ifs <;> first | rfl | omega

/-- Even offsets of the alternating trace, where defined, hold the entry
side's message. -/
theorem traceFrom_get_even (a : Bool) (n k : Nat) :
    (traceFrom a n).get? (2 * k) = none ∨
    (traceFrom a n).get? (2 * k) = some (msgOf a) := by
  rw [traceFrom_get]
  split_ifs with h1 h2
  · right; rfl
  · exact absurd (by omega : 2 * k % 2 = 0) h2
  · left; rfl

/-- Odd offsets of the alternating trace, where defined, hold the other
side's message. -/
theorem traceFrom_get_odd (a : Bool) (n k : Nat) :
    (traceFrom a n).get? (2 * k + 1) = none ∨
    (traceFrom a n).get? (2 * k + 1) = some (msgOf (!a)) := by
  rw [traceFrom_get]
  split_ifs with h1 h2
  · exact absurd h2 (by omega)
  · right; rfl
  · left; rfl

/-- The first two lines of the alternating trace, as soon as it has two. -/
theorem traceFrom_take_two (k : Nat) (a : Bool) :
    (traceFrom a (k + 1)).take 2 = [msgOf a, msgOf (!a)] := by
  cases k with
  | zero => rfl
  | succ k => rfl

/-- A resolved call with positive fuel runs the resolved body with one
unit of fuel less and closes the frame. -/
theorem execCall_resolved (env : Env) (n : Nat) (f : String) (body : List Stmt)
    (s : CState) (henv : env f = some body) :
    execCall env (n + 1) f s
      = match execList (execCall env n) body s with
        | (s', Signal.returned _) => (s', Signal.normal)
        | (s', r) => (s', r) := by
  rw [execCall, henv]

/-- Claim C1, counterexample: the linked program does not terminate.
No fuel bound lets either `main` reach a return: the claimed return after
the two messages never happens, on either entry point, on empty input. -/
theorem c1_counterexample :
    ¬ ∃ (n : Nat) (v : Int),
        (exec linkedEnv n mainA (initState [])).2 = Signal.returned v ∨
        (exec linkedEnv n mainB (initState [])).2 = Signal.returned v := by
  rintro ⟨n, v, h | h⟩
  · rw [(exec_main_timeout n (initState [])).1] at h
    exact Signal.noConfusion h
  · rw [(exec_main_timeout n (initState [])).2] at h
    exact Signal.noConfusion h

/-- Claim C1, amended: a run of the linked program never returns from
`main`; at every call-depth bound `n`, from either entry point and on any
input, execution is still in progress (timeout) and has already written
`n` output lines, so the printing goes on past the first two messages
forever. -/
theorem c1_never_returns (n : Nat) (input : List String) :
    ((exec linkedEnv n mainA (initState input)).2 = Signal.timeout ∧
     (exec linkedEnv n mainA (initState input)).1.stdout.length = n) ∧
    ((exec linkedEnv n mainB (initState input)).2 = Signal.timeout ∧
     (exec linkedEnv n mainB (initState input)).1.stdout.length = n) := by
  cases n with
  | zero => exact ⟨⟨rfl, rfl⟩, rfl, rfl⟩
  | succ n =>
    rw [exec_mainA_succ, exec_mainB_succ]
    refine ⟨⟨rfl, ?_⟩, rfl, ?_⟩ <;> simp [initState, traceFrom_length]

/-- Claim C2: in the run starting at package-a.c's `main`, the first line
written to standard output is message A and the second is message B; in
the run starting at package-b.c's `main` the two lines come in the reverse
order (here with call-depth fuel at least 2 so that both lines exist). -/
theorem c2_first_two_lines (n : Nat) (input : List String) (h : 2 ≤ n) :
    (exec linkedEnv n mainA (initState input)).1.stdout.take 2 = [msgA, msgB] ∧
    (exec linkedEnv n mainB (initState input)).1.stdout.take 2 = [msgB, msgA] := by
  obtain ⟨m, rfl⟩ : ∃ m, n = m + 1 + 1 := ⟨n - 2, by omega⟩
  rw [exec_mainA_succ, exec_mainB_succ]
  constructor <;> simp [initState, traceFrom_take_two, msgOf]

/-- Witness for C2 at fuel 2 on empty input. -/
theorem c2_first_two_lines_witness :
    (exec linkedEnv 2 mainA (initState [])).1.stdout.take 2 = [msgA, msgB] ∧
    (exec linkedEnv 2 mainB (initState [])).1.stdout.take 2 = [msgB, msgA] :=
  c2_first_two_lines 2 [] (Nat.le_refl 2)

/-- Claim C3: with any fuel, running `package_a_function` is exactly
printing message A and then running `package_b_function` from the state
with that line written, and symmetrically for `package_b_function`: in
each function the print strictly precedes the cross-file call. -/
theorem c3_print_precedes_call (n : Nat) (s : CState) :
    exec linkedEnv (n + 1) package_a_function s
      = exec linkedEnv n package_b_function { s with stdout := s.stdout ++ [msgA] } ∧
    exec linkedEnv (n + 1) package_b_function s
      = exec linkedEnv n package_a_function { s with stdout := s.stdout ++ [msgB] } := by
  rw [exec_package_a, exec_package_b, exec_package_a, exec_package_b]
  constructor <;> simp [traceFrom, msgOf]

/-- Claim C4: each `main` is observationally the run of its own file's
local function — `main` of package-a.c does nothing but invoke
`package_a_function`, and `main` of package-b.c nothing but invoke
`package_b_function`. -/
theorem c4_main_invokes_local (n : Nat) (s : CState) :
    exec linkedEnv (n + 1) mainA s = exec linkedEnv n package_a_function s ∧
    exec linkedEnv (n + 1) mainB s = exec linkedEnv n package_b_function s := by
  rw [exec_mainA_succ, exec_mainB_succ, exec_package_a, exec_package_b]
  exact ⟨rfl, rfl⟩

/-- Claim C5: running either function only appends the two fixed text
lines to standard output: the input stream and the variable store are
untouched, and the output is extended, never rewritten. -/
theorem c5_output_only_effect (n : Nat) (s : CState) :
    ((exec linkedEnv n package_a_function s).1.stdin = s.stdin ∧
     (exec linkedEnv n package_a_function s).1.store = s.store ∧
     ∃ t, (exec linkedEnv n package_a_function s).1.stdout = s.stdout ++ t ∧
       ∀ x ∈ t, x = msgA ∨ x = msgB) ∧
    ((exec linkedEnv n package_b_function s).1.stdin = s.stdin ∧
     (exec linkedEnv n package_b_function s).1.store = s.store ∧
     ∃ t, (exec linkedEnv n package_b_function s).1.stdout = s.stdout ++ t ∧
       ∀ x ∈ t, x = msgA ∨ x = msgB) := by
  rw [exec_package_a, exec_package_b]
  exact ⟨⟨rfl, rfl, traceFrom true n, rfl, traceFrom_mem n true⟩,
         rfl, rfl, traceFrom false n, rfl, traceFrom_mem n false⟩

/-- Claim C6: no execution of either function or either `main` under the
mutual linkage ever reaches an error outcome (unresolved symbol or failed
input read), at any fuel and from any state. -/
theorem c6_no_error (n : Nat) (s : CState) :
    ((exec linkedEnv n package_a_function s).2.isErr = false) ∧
    ((exec linkedEnv n package_b_function s).2.isErr = false) ∧
    ((exec linkedEnv n mainA s).2.isErr = false) ∧
    ((exec linkedEnv n mainB s).2.isErr = false) := by
  rw [exec_package_a, exec_package_b]
  refine ⟨rfl, rfl, ?_, ?_⟩
  · rw [(exec_main_timeout n s).1]; rfl
  · rw [(exec_main_timeout n s).2]; rfl

/-- Claim C7: the programs hold no data state — after any fuel-bounded
prefix of any execution of either function or either `main`, the variable
store and the input stream are exactly as they started. -/
theorem c7_state_unchanged (n : Nat) (s : CState) :
    ((exec linkedEnv n package_a_function s).1.store = s.store ∧
     (exec linkedEnv n package_a_function s).1.stdin = s.stdin) ∧
    ((exec linkedEnv n package_b_function s).1.store = s.store ∧
     (exec linkedEnv n package_b_function s).1.stdin = s.stdin) ∧
    ((exec linkedEnv n mainA s).1.store = s.store ∧
     (exec linkedEnv n mainA s).1.stdin = s.stdin) ∧
    ((exec linkedEnv n mainB s).1.store = s.store ∧
     (exec linkedEnv n mainB s).1.stdin = s.stdin) := by
  rw [exec_package_a, exec_package_b]
  refine ⟨⟨rfl, rfl⟩, ⟨rfl, rfl⟩, ?_, ?_⟩
  · cases n with
    | zero => exact ⟨rfl, rfl⟩
    | succ m => rw [exec_mainA_succ]; exact ⟨rfl, rfl⟩
  · cases n with
    | zero => exact ⟨rfl, rfl⟩
    | succ m => rw [exec_mainB_succ]; exact ⟨rfl, rfl⟩

/-- Claim C8: alternation of the output trace.  In the run entered at
`package_a_function`, every output line at an even offset (the (2k+1)-th
line), when it exists, is message A and every line at an odd offset (the
(2k+2)-th line) is message B; symmetrically, with the two messages
swapped, for the run entered at `package_b_function`. -/
theorem c8_alternation (n k : Nat) :
    (((exec linkedEnv n package_a_function (initState [])).1.stdout.get? (2 * k) = none ∨
      (exec linkedEnv n package_a_function (initState [])).1.stdout.get? (2 * k) = some msgA) ∧
     ((exec linkedEnv n package_a_function (initState [])).1.stdout.get? (2 * k + 1) = none ∨
      (exec linkedEnv n package_a_function (initState [])).1.stdout.get? (2 * k + 1) = some msgB)) ∧
    (((exec linkedEnv n package_b_function (initState [])).1.stdout.get? (2 * k) = none ∨
      (exec linkedEnv n package_b_function (initState [])).1.stdout.get? (2 * k) = some msgB) ∧
     ((exec linkedEnv n package_b_function (initState [])).1.stdout.get? (2 * k + 1) = none ∨
      (exec linkedEnv n package_b_function (initState [])).1.stdout.get? (2 * k + 1) = some msgA)) := by
  rw [exec_package_a, exec_package_b]
  exact ⟨⟨traceFrom_get_even true n k, traceFrom_get_odd true n k⟩,
         traceFrom_get_even false n k, traceFrom_get_odd false n k⟩

/-- Claim C9: determinism — the programs read no input, so two runs from
the same entry point at the same call-depth bound produce identical output
traces and identical outcomes, whatever input streams they were given. -/
theorem c9_deterministic (n : Nat) (input1 input2 : List String) :
    ((exec linkedEnv n mainA (initState input1)).1.stdout
       = (exec linkedEnv n mainA (initState input2)).1.stdout ∧
     (exec linkedEnv n mainA (initState input1)).2
       = (exec linkedEnv n mainA (initState input2)).2) ∧
    ((exec linkedEnv n mainB (initState input1)).1.stdout
       = (exec linkedEnv n mainB (initState input2)).1.stdout ∧
     (exec linkedEnv n mainB (initState input1)).2
       = (exec linkedEnv n mainB (initState input2)).2) := by
  cases n with
  | zero => exact ⟨⟨rfl, rfl⟩, rfl, rfl⟩
  | succ m =>
    rw [exec_mainA_succ, exec_mainA_succ, exec_mainB_succ, exec_mainB_succ]
    exact ⟨⟨rfl, rfl⟩, rfl, rfl⟩

/-- Claim C10: whichever linkage resolves the symbol, if the one function
call made by either file's `main` completes (normally or through a
`return` inside the callee), then that `main` returns exit status 0 from
the state the call produced. -/
theorem c10_return_zero :
    (∀ (env : Env) (n : Nat) (s s' : CState) (body : List Stmt) (sig : Signal),
        env "package_a_function" = some body →
        execList (execCall env n) body s = (s', sig) →
        (sig = Signal.normal ∨ ∃ v, sig = Signal.returned v) →
        exec env (n + 1) mainA s = (s', Signal.returned 0)) ∧
    (∀ (env : Env) (n : Nat) (s s' : CState) (body : List Stmt) (sig : Signal),
        env "package_b_function" = some body →
        execList (execCall env n) body s = (s', sig) →
        (sig = Signal.normal ∨ ∃ v, sig = Signal.returned v) →
        exec env (n + 1) mainB s = (s', Signal.returned 0)) := by
  constructor
  · intro env n s s' body sig henv hrun hsig
    show (match execCall env (n + 1) "package_a_function" s with
          | (t, Signal.normal) => execList (execCall env (n + 1)) [Stmt.ret 0] t
          | (t, r) => (t, r)) = (s', Signal.returned 0)
    rw [execCall_resolved env n _ body s henv, hrun]
    rcases hsig with h | ⟨v, h⟩ <;> subst h <;> rfl
  · intro env n s s' body sig henv hrun hsig
    show (match execCall env (n + 1) "package_b_function" s with
          | (t, Signal.normal) => execList (execCall env (n + 1)) [Stmt.ret 0] t
          | (t, r) => (t, r)) = (s', Signal.returned 0)
    rw [execCall_resolved env n _ body s henv, hrun]
    rcases hsig with h | ⟨v, h⟩ <;> subst h <;> rfl

/-- Witness for C10: under the stub linkage where both callees are empty
(so the call returns at once), each `main` returns with exit status 0. -/
theorem c10_return_zero_witness :
    exec stubEnv 1 mainA (initState []) = (initState [], Signal.returned 0) ∧
    exec stubEnv 1 mainB (initState []) = (initState [], Signal.returned 0) :=
  ⟨c10_return_zero.1 stubEnv 0 (initState []) (initState []) [] Signal.normal rfl rfl
     (Or.inl rfl),
   c10_return_zero.2 stubEnv 0 (initState []) (initState []) [] Signal.normal rfl rfl
     (Or.inl rfl)⟩

end CircularDeps
